import Mathlib

/-!
# Verification of the orbit_rat stick-to-mouse controller

A shallow embedding of `src/main.cpp` of the orbit_rat repository:
two analog sticks are normalized, classified against a dead zone, and
drive a relative-mouse-motion state machine whose net displacement is
cancelled by a bounded-step "unwind" loop when a gesture ends.

Modelling conventions:
* C `int` values become `Int` (no arithmetic in the program can overflow
  on the inputs the theorems quantify over; the unwind loop only moves
  accumulators toward zero).
* C `float` arithmetic is modelled exactly over `ℚ`; conversion
  `(int)` of a `float` is truncation toward zero (`truncQ`).
* The HID sinks (`Mouse.move`, `Mouse.set_buttons`, `Keyboard.press`,
  `Keyboard.release`) are opaque: a tick returns the list of emitted
  `Event`s instead of calling them.  `delay` calls are timing only and
  emit nothing.
-/

namespace OrbitRat

/-- `constexpr int pan_speed = -25` (main.cpp line 9). -/
def pan_speed : Int := -25

/-- `constexpr int orbit_speed = -10` (main.cpp line 10). -/
def orbit_speed : Int := -10

/-- `constexpr float deadzone = 0.02` (main.cpp line 11), modelled exactly. -/
def deadzone : ℚ := 2 / 100

/-- `constexpr int max_unwind_step = 100` (main.cpp line 12). -/
def max_unwind_step : Int := 100

/-- Truncation toward zero: the C conversion from `float` to `int`. -/
def truncQ (q : ℚ) : Int := if 0 ≤ q then ⌊q⌋ else ⌈q⌉

/-!
## Unwind engine (main.cpp lines 125–146)

`max_step` is parametrized by the step bound `maxStep` (the source fixes
it to the constant `max_unwind_step = 100`); the claims quantify over
every positive bound.
-/

/-- `int max_step(int const& accum)` (main.cpp lines 125–134), with the
step bound `maxStep` as a parameter. -/
def max_step (maxStep : Int) (accum : Int) : Int :=
  if accum > 0 then
    -(min accum maxStep)
  else if accum < 0 then
    min maxStep (-accum)
  else
    0

/-- `void doUnwind()` (main.cpp lines 137–146).  The loop
`while (acc.1 ≠ 0 || acc.2 ≠ 0)` emits `Mouse.move(xMove, yMove)` each
iteration and adds the step back into the accumulator.  The function
returns the list of emitted move vectors together with the final
accumulator.  Termination requires `0 < maxStep` (with the source's
`max_unwind_step = 100` this holds). -/
def doUnwind (maxStep : Int) (hms : 0 < maxStep) (acc : Int × Int) :
    List (Int × Int) × (Int × Int) :=
  if acc.1 = 0 ∧ acc.2 = 0 then
    ([], acc)
  else
    let xMove := max_step maxStep acc.1
    let yMove := max_step maxStep acc.2
    let rest := doUnwind maxStep hms (acc.1 + xMove, acc.2 + yMove)
    ((xMove, yMove) :: rest.1, rest.2)
  termination_by max acc.1.natAbs acc.2.natAbs
  decreasing_by
    unfold max_step
    split_ifs <;> omega

/-!
## Calibration and normalization (main.cpp lines 41–46, 67–88, 99–105)
-/

/-- `float normalize(float low, float val, float high)` (main.cpp
lines 67–70). -/
def normalize (low val high : ℚ) : ℚ :=
  let range := high - low
  (val - low) / range

/-- The per-axis body of `void normalizeSticks()` (main.cpp lines 78–88):
two-segment normalization around the calibrated center, followed by the
final sign inversion of line 86.  `ext = (low, center, high)`. -/
def normalizeAxis (ext : ℚ × ℚ × ℚ) (val : ℚ) : ℚ :=
  let n :=
    if val < ext.2.1 then
      -(1 - normalize ext.1 val ext.2.1)
    else
      normalize ext.2.1 val ext.2.2
  (-n)

/-- `float axisExtents[][3]` initial values (main.cpp lines 41–46). -/
def axisExtents : Int → ℚ × ℚ × ℚ
  | 0 => (3, 520, 1021)
  | 1 => (6, 498, 1019)
  | 2 => (3, 530, 1021)
  | 3 => (2, 513, 1022)
  | _ => (0, 0, 0)

/-- The startup-calibration loop of `setup()` (main.cpp lines 99–105):
each axis's center is overwritten with the raw sample read at startup;
low and high are kept. -/
def calibrateCenters (ext : Int → ℚ × ℚ × ℚ) (raw : Int → ℚ) :
    Int → ℚ × ℚ × ℚ :=
  fun i => ((ext i).1, raw i, (ext i).2.2)

/-!
## Joystick HID remap (main.cpp lines 73–75, 109–114)
-/

/-- `unsigned int to_joy(float val)` (main.cpp lines 73–75): the C cast
truncates the float toward zero (well defined for the non-negative
values the claims concern). -/
def to_joy (val : ℚ) : Int :=
  truncQ ((val + 1) / 2 * 1023)

/-- `void sendJoystick()` (main.cpp lines 109–114): the values reported
on the X, Y, sliderLeft and Zrotate channels, in call order. -/
def sendJoystick (normalizedAxes : Int → ℚ) : List Int :=
  [to_joy (normalizedAxes 0), to_joy (normalizedAxes 1),
    to_joy (normalizedAxes 3), to_joy (normalizedAxes 2)]

/-!
## Dead-zone classifier (main.cpp lines 153–155)
-/

/-- `bool checkDeadzone(int startIndex)` (main.cpp lines 153–155):
true iff both axes of the stick are strictly inside the dead zone.
The threshold is a parameter (the source reads the configuration
constant `deadzone` of line 11, which the state machine passes below);
the claims quantify over every threshold. -/
def checkDeadzone (threshold : ℚ) (normalizedAxes : Int → ℚ) (startIndex : Int) : Bool :=
  |normalizedAxes startIndex| < threshold ∧
    |normalizedAxes (startIndex + 1)| < threshold

/-- The spec's dead-zone sentence, written independently of the code: a
stick is inactive iff both of its axes lie strictly within the
±threshold band around zero. -/
def stickInactiveSpec (threshold : ℚ) (normalizedAxes : Int → ℚ) (startIndex : Int) : Prop :=
  |normalizedAxes startIndex| < threshold ∧
    |normalizedAxes (startIndex + 1)| < threshold

/-!
## Motion state machine (main.cpp lines 16–25, 117–120, 149, 157–174,
177–227)
-/

/-- One HID sink call emitted during a tick. -/
inductive Event : Type
  | move (dx dy : Int)
  | setButtons (left middle right : Bool)
  | keyPress (key : Int)
  | keyRelease (key : Int)
  deriving DecidableEq, Repr

/-- The key code `KEY_LEFT_SHIFT` from the Teensy `Keyboard.h`; the
program only ever tests it against 0, so only its nonzero-ness matters. -/
def KEY_LEFT_SHIFT : Int := 129

/-- `constexpr bool stick_active_buttons[][3]` (main.cpp lines 16–19). -/
def stick_active_buttons (stickIndex : Int) : Bool × Bool × Bool :=
  if stickIndex = 0 then (false, true, false)
  else if stickIndex = 1 then (false, true, false)
  else (false, false, false)

/-- `constexpr int stick_active_key[]` (main.cpp lines 22–25). -/
def stick_active_key (stickIndex : Int) : Int :=
  if stickIndex = 0 then 0
  else if stickIndex = 1 then KEY_LEFT_SHIFT
  else 0

/-- `void setMouseButtons(int startIndex)` (main.cpp lines 157–160):
the emitted `Mouse.set_buttons` event.  `startIndex >> 1` is the
arithmetic shift, i.e. flooring division by two. -/
def setMouseButtons (startIndex : Int) : Event :=
  let stickIndex := Int.fdiv startIndex 2
  let b := stick_active_buttons stickIndex
  Event.setButtons b.1 b.2.1 b.2.2

/-- `void setKeys(int startIndex, bool press)` (main.cpp lines 162–174):
the emitted keyboard events (none when the stick's key is 0). -/
def setKeys (startIndex : Int) (press : Bool) : List Event :=
  let stickIndex := Int.fdiv startIndex 2
  let key := stick_active_key stickIndex
  if key = 0 then []
  else if press then [Event.keyPress key]
  else [Event.keyRelease key]

/-- The mutable globals of the motion state machine:
`inMove` (line 120), `motionStartIndex` (line 149) and
`unwindAccumulator` (line 117). -/
structure ControllerState : Type where
  inMove : Bool
  motionStartIndex : Int
  unwindAccumulator : Int × Int
  deriving DecidableEq, Repr

/-- The initial values of the globals: not in a move, no origin stick,
zero accumulator. -/
def initialState : ControllerState :=
  { inMove := false, motionStartIndex := -1, unwindAccumulator := (0, 0) }

/-- The tail of `sendMouse` (main.cpp lines 217–227): the steady-state
move, executed both right after a gesture starts and on every tick the
gesture continues.  `preEvents` are the events already emitted earlier
in the tick. -/
def steadyMove (normalizedAxes : Int → ℚ) (s : ControllerState)
    (preEvents : List Event) : List Event × ControllerState :=
  let speed := if s.motionStartIndex = 0 then pan_speed else orbit_speed
  let xMove := truncQ ((speed : ℚ) * normalizedAxes s.motionStartIndex)
  let yMove := truncQ ((speed : ℚ) * normalizedAxes (s.motionStartIndex + 1))
  (preEvents ++ [Event.move xMove yMove],
    { s with
      unwindAccumulator :=
        (s.unwindAccumulator.1 + xMove, s.unwindAccumulator.2 + yMove) })

/-- `void sendMouse()` (main.cpp lines 177–227): one tick of the motion
state machine, returning the list of emitted HID events and the updated
state.  The `delay(10)` calls are timing only and emit nothing. -/
def sendMouse (normalizedAxes : Int → ℚ) (s : ControllerState) :
    List Event × ControllerState :=
  if s.inMove = true ∧ checkDeadzone deadzone normalizedAxes s.motionStartIndex = true then
    let u := doUnwind max_unwind_step (by norm_num [max_unwind_step]) s.unwindAccumulator
    (Event.setButtons false false false ::
        (setKeys s.motionStartIndex false ++
          u.1.map (fun d => Event.move d.1 d.2)),
      { s with inMove := false, unwindAccumulator := u.2 })
  else if s.inMove = false then
    if checkDeadzone deadzone normalizedAxes 0 = false then
      let s1 : ControllerState :=
        { inMove := true, motionStartIndex := 0, unwindAccumulator := (0, 0) }
      steadyMove normalizedAxes s1 (setKeys 0 true ++ [setMouseButtons 0])
    else if checkDeadzone deadzone normalizedAxes 2 = false then
      let s1 : ControllerState :=
        { inMove := true, motionStartIndex := 2, unwindAccumulator := (0, 0) }
      steadyMove normalizedAxes s1 (setKeys 2 true ++ [setMouseButtons 2])
    else
      ([], s)
  else
    steadyMove normalizedAxes s []

/-- Run `sendMouse` over a list of per-tick normalized-axis samples,
concatenating the emitted events (the `loop()` of main.cpp lines
242–262, with sampling and normalization abstracted into the input
list and `send_joystick_hid = false` as configured). -/
def runTicks (inputs : List (Int → ℚ)) (s : ControllerState) :
    List Event × ControllerState :=
  match inputs with
  | [] => ([], s)
  | a :: rest =>
      let r := sendMouse a s
      let r2 := runTicks rest r.2
      (r.1 ++ r2.1, r2.2)

/-- The net mouse displacement carried by a list of events: the
componentwise sum of all `Event.move` vectors. -/
def netDisp (events : List Event) : Int × Int :=
  events.foldr
    (fun e acc =>
      match e with
      | Event.move dx dy => (acc.1 + dx, acc.2 + dy)
      | _ => acc)
    (0, 0)

/-!
## Lemmas about the unwind engine
-/

/-- One unwind iteration shrinks the absolute value of an axis by
exactly `min |accum| maxStep` (as a truncated `Nat` subtraction). -/
lemma natAbs_add_max_step (maxStep : Int) (hms : 0 < maxStep) (a : Int) :
    (a + max_step maxStep a).natAbs = a.natAbs - maxStep.toNat := by
  unfold max_step
  split_ifs <;> omega

/-- Each emitted step is bounded: `|max_step maxStep a| ≤ maxStep`. -/
lemma abs_max_step_le (maxStep : Int) (hms : 0 < maxStep) (a : Int) :
    |max_step maxStep a| ≤ maxStep := by
  unfold max_step
  rw [abs_le]
  split_ifs <;> omega

/-- The unwind loop exits with both accumulator components at zero. -/
lemma doUnwind_acc_zero (maxStep : Int) (hms : 0 < maxStep) (acc : Int × Int) :
    (doUnwind maxStep hms acc).2 = (0, 0) := by
  induction acc using doUnwind.induct maxStep hms with
  | case1 acc h =>
      unfold doUnwind
      rw [if_pos h]
      exact Prod.ext h.1 h.2
  | case2 acc h x y ih =>
      unfold doUnwind
      rw [if_neg h]
      exact ih

/-- The emitted move vectors of the unwind sum to the negated
accumulator, componentwise. -/
lemma doUnwind_sum (maxStep : Int) (hms : 0 < maxStep) (acc : Int × Int) :
    (((doUnwind maxStep hms acc).1.map Prod.fst).sum,
      ((doUnwind maxStep hms acc).1.map Prod.snd).sum) = (-acc.1, -acc.2) := by
  induction acc using doUnwind.induct maxStep hms with
  | case1 acc h =>
      unfold doUnwind
      rw [if_pos h]
      simp [h.1, h.2]
  | case2 acc h x y ih =>
      unfold doUnwind
      rw [if_neg h]
      simp only [List.map_cons, List.sum_cons, Prod.mk.injEq] at ih ⊢
      constructor
      · rw [ih.1]; ring
      · rw [ih.2]; ring

/-- Every move emitted by the unwind is bounded by `maxStep` on both
axes. -/
lemma doUnwind_step_bound (maxStep : Int) (hms : 0 < maxStep) (acc : Int × Int) :
    ∀ d ∈ (doUnwind maxStep hms acc).1, |d.1| ≤ maxStep ∧ |d.2| ≤ maxStep := by
  induction acc using doUnwind.induct maxStep hms with
  | case1 acc h =>
      unfold doUnwind
      rw [if_pos h]
      simp
  | case2 acc h x y ih =>
      unfold doUnwind
      rw [if_neg h]
      intro d hd
      simp only [List.mem_cons] at hd
      rcases hd with hd | hd
      · subst hd
        exact ⟨abs_max_step_le maxStep hms acc.1, abs_max_step_le maxStep hms acc.2⟩
      · exact ih d hd

/-- Ceiling-division recurrence: removing one bounded step from a
positive remainder costs exactly one iteration. -/
lemma ceil_div_step (s m : ℕ) (hs : 0 < s) (hm : 0 < m) :
    (m + s - 1) / s = ((m - s) + s - 1) / s + 1 := by
  rcases le_or_lt m s with h | h
  · have h0 : m - s = 0 := by omega
    rw [h0]
    have hL : m + s - 1 = (m - 1) + s := by omega
    rw [hL, Nat.add_div_right _ hs]
    have h1 : (m - 1) / s = 0 := Nat.div_eq_of_lt (by omega)
    have h2 : 0 + s - 1 = s - 1 := by omega
    rw [h1, h2, Nat.div_eq_of_lt (by omega)]
  · have hL : m + s - 1 = ((m - s) + s - 1) + s := by omega
    rw [hL, Nat.add_div_right _ hs]

/-- The number of unwind iterations is the ceiling of the largest
axis magnitude divided by the step bound, as a `Nat` division. -/
lemma doUnwind_length (maxStep : Int) (hms : 0 < maxStep) (acc : Int × Int) :
    (doUnwind maxStep hms acc).1.length
      = (max acc.1.natAbs acc.2.natAbs + maxStep.toNat - 1) / maxStep.toNat := by
  induction acc using doUnwind.induct maxStep hms with
  | case1 acc h =>
      unfold doUnwind
      rw [if_pos h]
      simp only [List.length_nil, h.1, h.2, Int.natAbs_zero, Nat.max_self, Nat.zero_add]
      exact (Nat.div_eq_of_lt (by omega)).symm
  | case2 acc h x y ih =>
      unfold doUnwind
      rw [if_neg h]
      simp only [List.length_cons, ih, natAbs_add_max_step maxStep hms]
      have hmax : max (acc.1.natAbs - maxStep.toNat) (acc.2.natAbs - maxStep.toNat)
          = max acc.1.natAbs acc.2.natAbs - maxStep.toNat := by omega
      rw [hmax]
      exact (ceil_div_step maxStep.toNat _ (by omega) (by omega)).symm

/-- The `Nat`-division form `(m + s - 1) / s` is the rational ceiling
`⌈m / s⌉`. -/
lemma nat_ceil_formula (m s : ℕ) (hs : 0 < s) :
    (((m + s - 1) / s : ℕ) : Int) = ⌈(m : ℚ) / (s : ℚ)⌉ := by
  symm
  rw [Int.ceil_eq_iff]
  have hds := Nat.div_add_mod (m + s - 1) s
  set q := (m + s - 1) / s with hq
  set r := (m + s - 1) % s with hr
  have h2 : r < s := Nat.mod_lt _ hs
  have hcast : (s : ℚ) * q + r = m + s - 1 := by
    have h1 : s * q + r + 1 = m + s := by omega
    have h3 := congrArg (fun n : ℕ => (n : ℚ)) h1
    push_cast at h3
    linarith
  have hsq : (0 : ℚ) < s := by positivity
  have hrq : (0 : ℚ) ≤ r := by positivity
  have h2q : (r : ℚ) + 1 ≤ s := by exact_mod_cast h2
  constructor
  · rw [lt_div_iff₀ hsq]
    push_cast
    nlinarith [hcast]
  · rw [div_le_iff₀ hsq]
    push_cast
    nlinarith [hcast]

/-!
## Claim theorems: the unwind engine
-/

/-- C1: for every accumulator pair `(ax, ay)` of integers and every
positive `maxStep`, the unwind engine terminates (`doUnwind` is a total
function once `0 < maxStep` is supplied; its termination measure is the
largest axis magnitude) and the componentwise sum of all emitted
mouse-move vectors is exactly `(-ax, -ay)`. -/
theorem unwind_zero_sum (ax ay maxStep : Int) (hms : 0 < maxStep) :
    ((doUnwind maxStep hms (ax, ay)).1.map Prod.fst).sum = -ax ∧
    ((doUnwind maxStep hms (ax, ay)).1.map Prod.snd).sum = -ay := by
  have h := doUnwind_sum maxStep hms (ax, ay)
  rw [Prod.ext_iff] at h
  exact h

/-- Witness for C1 at accumulator `(250, -30)` and `maxStep = 100`. -/
theorem unwind_zero_sum_witness :
    (0 : Int) < 100 ∧
    ((doUnwind 100 (by norm_num) ((250 : Int), (-30 : Int))).1.map Prod.fst).sum = -250 ∧
    ((doUnwind 100 (by norm_num) ((250 : Int), (-30 : Int))).1.map Prod.snd).sum = 30 := by
  refine ⟨by norm_num, ?_⟩
  have h := unwind_zero_sum 250 (-30) 100 (by norm_num)
  simpa using h

/-- C3: every single mouse-move vector emitted by the unwind engine is
bounded by `maxStep` in absolute value on both axes, for every starting
accumulator and every positive `maxStep`. -/
theorem unwind_move_bounded (ax ay maxStep : Int) (hms : 0 < maxStep) :
    ∀ d ∈ (doUnwind maxStep hms (ax, ay)).1, |d.1| ≤ maxStep ∧ |d.2| ≤ maxStep :=
  doUnwind_step_bound maxStep hms (ax, ay)

/-- Witness for C3: the first move of the unwind of `(250, -30)` with
`maxStep = 100` is `(-100, 30)`, and it is bounded by `100`. -/
theorem unwind_move_bounded_witness :
    (0 : Int) < 100 ∧ |(-100 : Int)| ≤ 100 ∧ |(30 : Int)| ≤ 100 := by
  refine ⟨by norm_num, ?_⟩
  have hmem : ((-100 : Int), (30 : Int)) ∈
      (doUnwind 100 (by norm_num) ((250 : Int), (-30 : Int))).1 := by
    simp [doUnwind, max_step]
  exact unwind_move_bounded 250 (-30) 100 (by norm_num) (-100, 30) hmem

/-- C4: for every accumulator `(ax, ay)` and positive `maxStep`, the
unwind loop performs exactly `⌈max |ax| |ay| / maxStep⌉` iterations
(one emitted move per iteration; the monotonic per-axis progress of
each iteration is the loop's termination measure,
cf. `natAbs_add_max_step`). -/
theorem unwind_iteration_count (ax ay maxStep : Int) (hms : 0 < maxStep) :
    ((doUnwind maxStep hms (ax, ay)).1.length : Int)
      = ⌈((max |ax| |ay| : Int) : ℚ) / (maxStep : ℚ)⌉ := by
  rw [doUnwind_length maxStep hms (ax, ay)]
  have h1 : ((max |ax| |ay| : Int) : ℚ) = ((max ax.natAbs ay.natAbs : ℕ) : ℚ) := by
    rw [Int.abs_eq_natAbs ax, Int.abs_eq_natAbs ay]
    norm_cast
  have h2 : (maxStep : ℚ) = ((maxStep.toNat : ℕ) : ℚ) :=
    (Int.toNat_of_nonneg (le_of_lt hms)) ▸ (by norm_cast)
  rw [h1, h2]
  exact nat_ceil_formula (max ax.natAbs ay.natAbs) maxStep.toNat (by omega)

/-- Witness for C4: unwinding `(250, -30)` with `maxStep = 100` takes
`⌈250/100⌉ = 3` iterations. -/
theorem unwind_iteration_count_witness :
    (0 : Int) < 100 ∧
    (((doUnwind 100 (by norm_num) ((250 : Int), (-30 : Int))).1.length : Int)
      = ⌈((max |(250 : Int)| |(-30 : Int)| : Int) : ℚ) / ((100 : Int) : ℚ)⌉) := by
  exact ⟨by norm_num, unwind_iteration_count 250 (-30) 100 (by norm_num)⟩

/-!
## Claim theorems: normalization, dead zone, joystick remap
-/

/-- C5: normalizing a raw sample exactly equal to the calibrated center
yields exactly 0 for every calibration with `low < center < high`; and
with startup calibration, an axis configured `(3, 520, 1021)` that reads
600 at startup gets effective center 600, after which normalizing raw
600 yields 0. -/
theorem normalize_center_zero (low center high : ℚ)
    (_h1 : low < center) (_h2 : center < high) :
    normalizeAxis (low, center, high) center = 0 ∧
    calibrateCenters axisExtents (fun _ => 600) 0 = (3, 600, 1021) ∧
    normalizeAxis (calibrateCenters axisExtents (fun _ => 600) 0) 600 = 0 := by
  refine ⟨?_, ?_, ?_⟩
  · simp [normalizeAxis, normalize]
  · rfl
  · norm_num [normalizeAxis, normalize, calibrateCenters, axisExtents]

/-- Witness for C5 at the valid calibration `(0, 1, 2)`. -/
theorem normalize_center_zero_witness :
    ((0 : ℚ) < 1 ∧ (1 : ℚ) < 2) ∧ normalizeAxis (0, 1, 2) 1 = 0 :=
  ⟨⟨by norm_num, by norm_num⟩,
    (normalize_center_zero 0 1 2 (by norm_num) (by norm_num)).1⟩

/-- C6: for every threshold and every pair of normalized axis values of
a stick, the dead-zone classifier reports the stick inactive (returns
`true`) iff both of its axes' absolute normalized values are strictly
within that threshold, and reports it active (returns `false`) whenever
either axis exceeds the threshold. -/
theorem deadzone_classifier (threshold : ℚ) (normalizedAxes : Int → ℚ) (i : Int) :
    (checkDeadzone threshold normalizedAxes i = true ↔
      stickInactiveSpec threshold normalizedAxes i) ∧
    ((threshold < |normalizedAxes i| ∨ threshold < |normalizedAxes (i + 1)|) →
      checkDeadzone threshold normalizedAxes i = false) := by
  constructor
  · simp [checkDeadzone, stickInactiveSpec]
  · intro h
    simp only [checkDeadzone, decide_eq_false_iff_not]
    intro hc
    rcases h with h | h
    · exact absurd hc.1 (by linarith)
    · exact absurd hc.2 (by linarith)

/-- Witness for C6 at the concrete threshold 1/10: a stick whose first
axis is deflected to 1 is classified active. -/
theorem deadzone_classifier_witness :
    checkDeadzone (1 / 10) (fun j => if j = 0 then (1 : ℚ) else 0) 0 = false := by
  refine (deadzone_classifier (1 / 10) (fun j => if j = 0 then (1 : ℚ) else 0) 0).2 ?_
  left
  norm_num

/-- For values at least −1 the C cast in `to_joy` is a floor. -/
lemma to_joy_eq_floor (val : ℚ) (h1 : -1 ≤ val) :
    to_joy val = ⌊(val + 1) / 2 * 1023⌋ := by
  unfold to_joy truncQ
  rw [if_pos (by nlinarith)]

/-- For normalized values in `[-1, 1]` the joystick report is within
`0..1023`. -/
lemma to_joy_range_core (val : ℚ) (h1 : -1 ≤ val) (h2 : val ≤ 1) :
    0 ≤ to_joy val ∧ to_joy val ≤ 1023 := by
  rw [to_joy_eq_floor val h1]
  constructor
  · exact Int.le_floor.mpr (by push_cast; nlinarith)
  · calc ⌊(val + 1) / 2 * 1023⌋ ≤ ⌊(1023 : ℚ)⌋ :=
          Int.floor_le_floor (by nlinarith)
      _ = 1023 := by norm_num

/-- C9 counterexample: the claim fails as stated for normalized values
outside `[-1, 1]`, which the normalizer produces unclamped.  With the
configured axis-0 calibration `(3, 520, 1021)`, raw sample 0 normalizes
to `520/517 > 1`, and the emitted joystick value is 1025, outside
`0..1023`. -/
theorem to_joy_range_counterexample :
    normalizeAxis (axisExtents 0) 0 = 520 / 517 ∧
    to_joy (normalizeAxis (axisExtents 0) 0) = 1025 ∧
    ¬(to_joy (normalizeAxis (axisExtents 0) 0) ≤ 1023) ∧
    (1025 : Int) ∈ sendJoystick (fun _ => normalizeAxis (axisExtents 0) 0) := by
  have h : normalizeAxis (axisExtents 0) 0 = 520 / 517 := by
    norm_num [normalizeAxis, normalize, axisExtents]
  have h2 : to_joy ((520 : ℚ) / 517) = 1025 := by
    norm_num [to_joy, truncQ]
  refine ⟨h, by rw [h]; exact h2, by rw [h, h2]; norm_num, ?_⟩
  simp [sendJoystick, h, h2]

/-- C9 amended: for every normalized axis function whose values lie in
`[-1, 1]`, each joystick HID report value equals the affine remap
`⌊(normalized + 1) / 2 * 1023⌋` (the truncation is a floor there) and
every value emitted by `sendJoystick` lies in the range `0..1023`. -/
theorem to_joy_range_amended (normalizedAxes : Int → ℚ)
    (h : ∀ i, -1 ≤ normalizedAxes i ∧ normalizedAxes i ≤ 1) :
    (∀ i, to_joy (normalizedAxes i) = ⌊(normalizedAxes i + 1) / 2 * 1023⌋) ∧
    ∀ v ∈ sendJoystick normalizedAxes, 0 ≤ v ∧ v ≤ 1023 := by
  refine ⟨fun i => to_joy_eq_floor _ (h i).1, ?_⟩
  intro v hv
  simp only [sendJoystick, List.mem_cons, List.not_mem_nil, or_false] at hv
  rcases hv with rfl | rfl | rfl | rfl <;> exact to_joy_range_core _ (h _).1 (h _).2

/-- Witness for C9 (amended) at the constant normalized value 1/2: the
report value is 767, inside `0..1023`. -/
theorem to_joy_range_amended_witness :
    (-1 ≤ (1 : ℚ) / 2 ∧ (1 : ℚ) / 2 ≤ 1) ∧
    (0 ≤ to_joy ((1 : ℚ) / 2) ∧ to_joy ((1 : ℚ) / 2) ≤ 1023) ∧
    to_joy ((1 : ℚ) / 2) = 767 := by
  have happ := to_joy_range_amended (fun _ => (1 : ℚ) / 2) (fun i => by norm_num)
  refine ⟨by norm_num, happ.2 _ ?_, by norm_num [to_joy, truncQ]⟩
  simp [sendJoystick]

/-!
## Lemmas about the motion state machine
-/

/-- Case lemma: gesture-exit tick (main.cpp lines 180–187).  While in a
move whose origin stick is back inside its dead zone, the tick clears
all mouse buttons, releases the stick's key if any, unwinds, and
returns to idle with a zero accumulator. -/
lemma sendMouse_exit (a : Int → ℚ) (s : ControllerState)
    (h1 : s.inMove = true) (h2 : checkDeadzone deadzone a s.motionStartIndex = true) :
    sendMouse a s =
      (Event.setButtons false false false ::
          (setKeys s.motionStartIndex false ++
            (doUnwind max_unwind_step (by norm_num [max_unwind_step])
                s.unwindAccumulator).1.map (fun d => Event.move d.1 d.2)),
        { s with inMove := false, unwindAccumulator := (0, 0) }) := by
  unfold sendMouse
  rw [if_pos ⟨h1, h2⟩]
  simp [doUnwind_acc_zero]

/-- Case lemma: steady-state tick.  While in a move whose origin stick
is still outside its dead zone, the tick just runs the motion tail. -/
lemma sendMouse_steady (a : Int → ℚ) (s : ControllerState)
    (h1 : s.inMove = true) (h2 : checkDeadzone deadzone a s.motionStartIndex = false) :
    sendMouse a s = steadyMove a s [] := by
  unfold sendMouse
  rw [if_neg (by simp [h2]), if_neg (by simp [h1])]

/-- Case lemma: idle tick with both sticks inside their dead zones. -/
lemma sendMouse_idle_still (a : Int → ℚ) (s : ControllerState)
    (h1 : s.inMove = false) (h2 : checkDeadzone deadzone a 0 = true)
    (h3 : checkDeadzone deadzone a 2 = true) :
    sendMouse a s = ([], s) := by
  unfold sendMouse
  rw [if_neg (by simp [h1]), if_pos h1, if_neg (by simp [h2]), if_neg (by simp [h3])]

/-- Case lemma: gesture start on the pan stick (axes 0, 1). -/
lemma sendMouse_start0 (a : Int → ℚ) (s : ControllerState)
    (h1 : s.inMove = false) (h2 : checkDeadzone deadzone a 0 = false) :
    sendMouse a s =
      steadyMove a
        { inMove := true, motionStartIndex := 0, unwindAccumulator := (0, 0) }
        (setKeys 0 true ++ [setMouseButtons 0]) := by
  unfold sendMouse
  rw [if_neg (by simp [h1]), if_pos h1, if_pos h2]

/-- Case lemma: gesture start on the orbit stick (axes 2, 3). -/
lemma sendMouse_start2 (a : Int → ℚ) (s : ControllerState)
    (h1 : s.inMove = false) (h2 : checkDeadzone deadzone a 0 = true)
    (h3 : checkDeadzone deadzone a 2 = false) :
    sendMouse a s =
      steadyMove a
        { inMove := true, motionStartIndex := 2, unwindAccumulator := (0, 0) }
        (setKeys 2 true ++ [setMouseButtons 2]) := by
  unfold sendMouse
  rw [if_neg (by simp [h1]), if_pos h1, if_neg (by simp [h2]), if_pos h3]

lemma netDisp_nil : netDisp [] = (0, 0) := rfl

lemma netDisp_cons_move (dx dy : Int) (t : List Event) :
    netDisp (Event.move dx dy :: t) = ((netDisp t).1 + dx, (netDisp t).2 + dy) := rfl

lemma netDisp_cons_setButtons (b1 b2 b3 : Bool) (t : List Event) :
    netDisp (Event.setButtons b1 b2 b3 :: t) = netDisp t := rfl

lemma netDisp_cons_keyPress (k : Int) (t : List Event) :
    netDisp (Event.keyPress k :: t) = netDisp t := rfl

lemma netDisp_cons_keyRelease (k : Int) (t : List Event) :
    netDisp (Event.keyRelease k :: t) = netDisp t := rfl

/-- Net displacement distributes over concatenation. -/
lemma netDisp_append (l1 l2 : List Event) :
    netDisp (l1 ++ l2) = ((netDisp l1).1 + (netDisp l2).1, (netDisp l1).2 + (netDisp l2).2) := by
  induction l1 with
  | nil =>
      simp [netDisp_nil]
  | cons e t ih =>
      cases e with
      | move dx dy =>
          simp only [List.cons_append, netDisp_cons_move, ih]
          exact Prod.ext (by ring) (by ring)
      | setButtons b1 b2 b3 => simpa [netDisp_cons_setButtons] using ih
      | keyPress k => simpa [netDisp_cons_keyPress] using ih
      | keyRelease k => simpa [netDisp_cons_keyRelease] using ih

/-- The key events of `setKeys` carry no displacement. -/
lemma netDisp_setKeys (i : Int) (press : Bool) : netDisp (setKeys i press) = (0, 0) := by
  by_cases hk : stick_active_key (Int.fdiv i 2) = 0
  · simp [setKeys, hk, netDisp_nil]
  · by_cases hp : press = true
    · simp [setKeys, hk, hp, netDisp_cons_keyPress, netDisp_nil]
    · simp [setKeys, hk, hp, netDisp_cons_keyRelease, netDisp_nil]

/-- The net displacement of a list of move events is the sum of the
vectors. -/
lemma netDisp_map_move (l : List (Int × Int)) :
    netDisp (l.map (fun d => Event.move d.1 d.2))
      = ((l.map Prod.fst).sum, (l.map Prod.snd).sum) := by
  induction l with
  | nil => rfl
  | cons d t ih =>
      simp only [List.map_cons, netDisp_cons_move, ih, List.sum_cons]
      exact Prod.ext (by ring) (by ring)

/-- A single `Mouse.set_buttons` event carries no displacement. -/
lemma netDisp_setMouseButtons (i : Int) : netDisp [setMouseButtons i] = (0, 0) := rfl

/-- Per-tick preservation of the gesture-displacement invariant: if the
events emitted so far sum to the accumulator (while in a move) or to
zero (while idle), the same holds after one `sendMouse` tick. -/
lemma tick_inv (a : Int → ℚ) (s : ControllerState) (D : Int × Int)
    (hT : s.inMove = true → D = s.unwindAccumulator)
    (hF : s.inMove = false → D = (0, 0)) :
    ((sendMouse a s).2.inMove = true →
      (D.1 + (netDisp (sendMouse a s).1).1, D.2 + (netDisp (sendMouse a s).1).2)
        = (sendMouse a s).2.unwindAccumulator) ∧
    ((sendMouse a s).2.inMove = false →
      (D.1 + (netDisp (sendMouse a s).1).1, D.2 + (netDisp (sendMouse a s).1).2)
        = (0, 0)) := by
  by_cases hm : s.inMove = true
  · by_cases hdz : checkDeadzone deadzone a s.motionStartIndex = true
    · rw [sendMouse_exit a s hm hdz]
      have hD := hT hm
      have hnd : netDisp (Event.setButtons false false false ::
          (setKeys s.motionStartIndex false ++
            (doUnwind max_unwind_step (by norm_num [max_unwind_step])
                s.unwindAccumulator).1.map (fun d => Event.move d.1 d.2)))
          = (-s.unwindAccumulator.1, -s.unwindAccumulator.2) := by
        rw [netDisp_cons_setButtons, netDisp_append, netDisp_setKeys, netDisp_map_move]
        have hsum := doUnwind_sum max_unwind_step (by norm_num [max_unwind_step])
          s.unwindAccumulator
        simp only [Prod.mk.injEq] at hsum
        simp only [hsum.1, hsum.2]
        exact Prod.ext (by ring) (by ring)
      constructor
      · intro hc
        simp at hc
      · intro _
        rw [hnd, hD]
        exact Prod.ext (by simp) (by simp)
    · have hdzF : checkDeadzone deadzone a s.motionStartIndex = false := by
        simpa using hdz
      rw [sendMouse_steady a s hm hdzF]
      unfold steadyMove
      simp only [List.nil_append]
      constructor
      · intro _
        rw [netDisp_cons_move, netDisp_nil, hT hm]
        exact Prod.ext (by simp) (by simp)
      · intro hc
        simp only [hm] at hc
        cases hc
  · have hmF : s.inMove = false := by
      simpa using hm
    have hD := hF hmF
    by_cases h0 : checkDeadzone deadzone a 0 = false
    · rw [sendMouse_start0 a s hmF h0]
      unfold steadyMove
      constructor
      · intro _
        rw [netDisp_append, netDisp_append, netDisp_setKeys, netDisp_setMouseButtons,
          netDisp_cons_move, netDisp_nil, hD]
        exact Prod.ext (by simp) (by simp)
      · intro hc
        cases hc
    · have h0T : checkDeadzone deadzone a 0 = true := by
        simpa using h0
      by_cases h2 : checkDeadzone deadzone a 2 = false
      · rw [sendMouse_start2 a s hmF h0T h2]
        unfold steadyMove
        constructor
        · intro _
          rw [netDisp_append, netDisp_append, netDisp_setKeys, netDisp_setMouseButtons,
            netDisp_cons_move, netDisp_nil, hD]
          exact Prod.ext (by simp) (by simp)
        · intro hc
          cases hc
      · have h2T : checkDeadzone deadzone a 2 = true := by
          simpa using h2
        rw [sendMouse_idle_still a s hmF h0T h2T]
        constructor
        · intro hc
          rw [hmF] at hc
          cases hc
        · intro _
          rw [netDisp_nil, hD]
          exact Prod.ext (by simp) (by simp)

/-- The gesture-displacement invariant extended over any run of ticks. -/
lemma runTicks_inv (inputs : List (Int → ℚ)) (s : ControllerState) (D : Int × Int)
    (hT : s.inMove = true → D = s.unwindAccumulator)
    (hF : s.inMove = false → D = (0, 0)) :
    (((runTicks inputs s).2.inMove = true →
        (D.1 + (netDisp (runTicks inputs s).1).1, D.2 + (netDisp (runTicks inputs s).1).2)
          = (runTicks inputs s).2.unwindAccumulator) ∧
     ((runTicks inputs s).2.inMove = false →
        (D.1 + (netDisp (runTicks inputs s).1).1, D.2 + (netDisp (runTicks inputs s).1).2)
          = (0, 0))) := by
  induction inputs generalizing s D with
  | nil =>
      simp only [runTicks, netDisp_nil]
      constructor
      · intro h
        rw [hT h]
        exact Prod.ext (by simp) (by simp)
      · intro h
        rw [hF h]
        exact Prod.ext (by simp) (by simp)
  | cons a rest ih =>
      simp only [runTicks]
      have h1 := tick_inv a s D hT hF
      have h2 := ih (sendMouse a s).2
        (D.1 + (netDisp (sendMouse a s).1).1, D.2 + (netDisp (sendMouse a s).1).2)
        h1.1 h1.2
      constructor
      · intro hend
        have h3 := h2.1 hend
        rw [netDisp_append]
        rw [← h3]
        exact Prod.ext (by dsimp only; ring) (by dsimp only; ring)
      · intro hend
        have h3 := h2.2 hend
        rw [netDisp_append]
        rw [← h3]
        exact Prod.ext (by dsimp only; ring) (by dsimp only; ring)

/-- Per-tick preservation: an idle state has a zero accumulator. -/
lemma tick_idle_acc (a : Int → ℚ) (s : ControllerState)
    (h : s.inMove = false → s.unwindAccumulator = (0, 0)) :
    (sendMouse a s).2.inMove = false → (sendMouse a s).2.unwindAccumulator = (0, 0) := by
  by_cases hm : s.inMove = true
  · by_cases hdz : checkDeadzone deadzone a s.motionStartIndex = true
    · rw [sendMouse_exit a s hm hdz]
      intro _
      rfl
    · have hdzF : checkDeadzone deadzone a s.motionStartIndex = false := by simpa using hdz
      rw [sendMouse_steady a s hm hdzF]
      unfold steadyMove
      intro hc
      simp only [hm] at hc
      cases hc
  · have hmF : s.inMove = false := by simpa using hm
    by_cases h0 : checkDeadzone deadzone a 0 = false
    · rw [sendMouse_start0 a s hmF h0]
      unfold steadyMove
      intro hc
      cases hc
    · have h0T : checkDeadzone deadzone a 0 = true := by simpa using h0
      by_cases h2 : checkDeadzone deadzone a 2 = false
      · rw [sendMouse_start2 a s hmF h0T h2]
        unfold steadyMove
        intro hc
        cases hc
      · have h2T : checkDeadzone deadzone a 2 = true := by simpa using h2
        rw [sendMouse_idle_still a s hmF h0T h2T]
        exact h

/-- The idle-accumulator invariant extended over any run of ticks. -/
lemma runTicks_idle_acc (inputs : List (Int → ℚ)) (s : ControllerState)
    (h : s.inMove = false → s.unwindAccumulator = (0, 0)) :
    (runTicks inputs s).2.inMove = false →
      (runTicks inputs s).2.unwindAccumulator = (0, 0) := by
  induction inputs generalizing s with
  | nil => exact h
  | cons a rest ih => exact ih (sendMouse a s).2 (tick_idle_acc a s h)

/-!
## Claim theorems: the motion state machine
-/

/-- C2: over any run of ticks that starts in the Idle state and ends in
the Idle state (in particular over every complete gesture from its
Idle-to-Active transition through its Active-to-Idle transition,
unwind included), the cumulative mouse displacement of all emitted
events is exactly zero on both axes. -/
theorem gesture_net_zero (inputs : List (Int → ℚ)) (s0 : ControllerState)
    (hstart : s0.inMove = false)
    (hend : (runTicks inputs s0).2.inMove = false) :
    netDisp (runTicks inputs s0).1 = (0, 0) := by
  have h := runTicks_inv inputs s0 (0, 0)
    (fun hc => absurd hc (by simp [hstart]))
    (fun _ => rfl)
  have h2 := h.2 hend
  simp only [Prod.mk.injEq] at h2
  exact Prod.ext (by simpa using h2.1) (by simpa using h2.2)

/-- C10: starting from the initial state, whenever the controller is
idle at a tick boundary the unwind accumulator is exactly `(0, 0)`. -/
theorem idle_accumulator_zero (inputs : List (Int → ℚ))
    (hend : (runTicks inputs initialState).2.inMove = false) :
    (runTicks inputs initialState).2.unwindAccumulator = (0, 0) :=
  runTicks_idle_acc inputs initialState (fun _ => rfl) hend

/-- Witness for C10 on the empty run: the initial state is idle and its
accumulator is zero. -/
theorem idle_accumulator_zero_witness :
    (runTicks [] initialState).2.inMove = false ∧
    (runTicks [] initialState).2.unwindAccumulator = (0, 0) :=
  ⟨rfl, idle_accumulator_zero [] rfl⟩

/-- While a move is active, a tick reads only the origin stick's two
axes: inputs agreeing there produce identical events and states. -/
lemma sendMouse_active_agree (a b : Int → ℚ) (s : ControllerState)
    (hm : s.inMove = true)
    (hx : a s.motionStartIndex = b s.motionStartIndex)
    (hy : a (s.motionStartIndex + 1) = b (s.motionStartIndex + 1)) :
    sendMouse a s = sendMouse b s := by
  have hdz : checkDeadzone deadzone a s.motionStartIndex = checkDeadzone deadzone b s.motionStartIndex := by
    unfold checkDeadzone
    rw [hx, hy]
  by_cases h : checkDeadzone deadzone a s.motionStartIndex = true
  · rw [sendMouse_exit a s hm h, sendMouse_exit b s hm (hdz.symm.trans h)]
  · have hF : checkDeadzone deadzone a s.motionStartIndex = false := by simpa using h
    rw [sendMouse_steady a s hm hF, sendMouse_steady b s hm (hdz.symm.trans hF)]
    unfold steadyMove
    rw [hx, hy]

/-- While the origin stick stays outside its dead zone, a tick keeps
the move active with the same origin. -/
lemma sendMouse_active_stay (a : Int → ℚ) (s : ControllerState)
    (hm : s.inMove = true)
    (hact : checkDeadzone deadzone a s.motionStartIndex = false) :
    (sendMouse a s).2.inMove = true ∧
    (sendMouse a s).2.motionStartIndex = s.motionStartIndex := by
  rw [sendMouse_steady a s hm hact]
  unfold steadyMove
  exact ⟨hm, rfl⟩

/-- Evaluation: the pan stick deflected to 1 is outside its dead zone. -/
lemma checkDeadzone_start_eval :
    checkDeadzone deadzone (fun i => if i = 0 then (1 : ℚ) else 0) 0 = false := by
  norm_num [checkDeadzone, deadzone]

/-- Evaluation: centered sticks are inside the dead zone. -/
lemma checkDeadzone_center_eval (i : Int) :
    checkDeadzone deadzone (fun _ => (0 : ℚ)) i = true := by
  norm_num [checkDeadzone, deadzone]

/-- Evaluation of the gesture-start tick used by the C2 witness. -/
lemma tick_start_eval :
    sendMouse (fun i => if i = 0 then (1 : ℚ) else 0) initialState
      = ([Event.setButtons false true false, Event.move (-25) 0],
         ⟨true, 0, (-25, 0)⟩) := by
  rw [sendMouse_start0 _ _ rfl checkDeadzone_start_eval]
  have hsk : setKeys 0 true = [] := rfl
  have hmb : setMouseButtons 0 = Event.setButtons false true false := rfl
  unfold steadyMove
  rw [hsk, hmb]
  norm_num [truncQ, pan_speed, Int.ceil_neg]

/-- Evaluation of the gesture-exit tick used by the C2 witness. -/
lemma tick_exit_eval :
    sendMouse (fun _ => (0 : ℚ)) (⟨true, 0, (-25, 0)⟩ : ControllerState)
      = ([Event.setButtons false false false, Event.move 25 0],
         ⟨false, 0, (0, 0)⟩) := by
  rw [show sendMouse (fun _ => (0 : ℚ)) (⟨true, 0, (-25, 0)⟩ : ControllerState)
      = (Event.setButtons false false false ::
          (setKeys 0 false ++
            (doUnwind max_unwind_step (by norm_num [max_unwind_step])
                ((-25 : Int), (0 : Int))).1.map (fun d => Event.move d.1 d.2)),
         ⟨false, 0, (0, 0)⟩)
    from sendMouse_exit _ _ rfl (checkDeadzone_center_eval 0)]
  have hdu : (doUnwind max_unwind_step (by norm_num [max_unwind_step])
      ((-25 : Int), (0 : Int))).1 = [(25, 0)] := by
    simp [doUnwind, max_step, max_unwind_step]
  rw [hdu]
  rfl

/-- Evaluation of the two-tick gesture run used by the C2 witness. -/
lemma run_two_ticks_eval :
    runTicks [(fun i => if i = 0 then (1 : ℚ) else 0), (fun _ => (0 : ℚ))] initialState
      = ([Event.setButtons false true false, Event.move (-25) 0,
          Event.setButtons false false false, Event.move 25 0],
         ⟨false, 0, (0, 0)⟩) := by
  simp [runTicks, tick_start_eval, tick_exit_eval]

/-- Witness for C2: a complete pan gesture (one motion tick emitting
`(-25, 0)`, one exit tick whose unwind emits `(25, 0)`) has net
displacement `(0, 0)`. -/
theorem gesture_net_zero_witness :
    initialState.inMove = false ∧
    (runTicks [(fun i => if i = 0 then (1 : ℚ) else 0), (fun _ => (0 : ℚ))]
        initialState).2.inMove = false ∧
    netDisp (runTicks [(fun i => if i = 0 then (1 : ℚ) else 0), (fun _ => (0 : ℚ))]
        initialState).1 = (0, 0) := by
  have hend : (runTicks [(fun i => if i = 0 then (1 : ℚ) else 0), (fun _ => (0 : ℚ))]
      initialState).2.inMove = false := by
    rw [run_two_ticks_eval]
  exact ⟨rfl, hend, gesture_net_zero _ initialState rfl hend⟩

/-- C7: while a gesture is active on origin stick `s` and that stick
stays outside its dead zone, the run's emitted events and final state
do not depend on the other stick's axes at all (so no move, button or
key event is attributable to the other stick), and the other stick
never becomes the origin: the origin index and the active flag are
preserved over the whole run. -/
theorem origin_exclusivity (inputs₁ inputs₂ : List (Int → ℚ)) (s : ControllerState)
    (hm : s.inMove = true)
    (hlen : inputs₁.length = inputs₂.length)
    (hagree : ∀ p ∈ inputs₁.zip inputs₂,
      p.1 s.motionStartIndex = p.2 s.motionStartIndex ∧
      p.1 (s.motionStartIndex + 1) = p.2 (s.motionStartIndex + 1))
    (hactive : ∀ a ∈ inputs₁, checkDeadzone deadzone a s.motionStartIndex = false) :
    runTicks inputs₁ s = runTicks inputs₂ s ∧
    (runTicks inputs₁ s).2.inMove = true ∧
    (runTicks inputs₁ s).2.motionStartIndex = s.motionStartIndex := by
  induction inputs₁ generalizing inputs₂ s with
  | nil =>
      cases inputs₂ with
      | nil => exact ⟨rfl, hm, rfl⟩
      | cons b t2 => cases hlen
  | cons a t ih =>
      cases inputs₂ with
      | nil => cases hlen
      | cons b t2 =>
          have hab := hagree (a, b) (by simp [List.zip_cons_cons])
          have hacta := hactive a (by simp)
          have heq := sendMouse_active_agree a b s hm hab.1 hab.2
          have hstay := sendMouse_active_stay a s hm hacta
          have hmsi := hstay.2
          have ht := ih t2 (sendMouse a s).2 hstay.1
            (by simpa using hlen)
            (by
              intro p hp
              rw [hmsi]
              exact hagree p (by simp [List.zip_cons_cons, hp]))
            (by
              intro x hx
              rw [hmsi]
              exact hactive x (List.mem_cons_of_mem a hx))
          refine ⟨?_, ?_, ?_⟩
          · show runTicks (a :: t) s = runTicks (b :: t2) s
            simp only [runTicks]
            rw [← heq, ht.1]
          · show (runTicks (a :: t) s).2.inMove = true
            simp only [runTicks]
            exact ht.2.1
          · show (runTicks (a :: t) s).2.motionStartIndex = s.motionStartIndex
            simp only [runTicks]
            rw [ht.2.2, hmsi]

/-- Witness for C7: with the pan gesture active, a tick whose orbit
axes read 1 produces the same output as one whose orbit axes read 0,
and the origin stays the pan stick. -/
theorem origin_exclusivity_witness :
    runTicks [fun i => if i ≤ 1 then (1 : ℚ) else 0]
        (⟨true, 0, (0, 0)⟩ : ControllerState)
      = runTicks [fun _ => (1 : ℚ)] (⟨true, 0, (0, 0)⟩ : ControllerState) ∧
    (runTicks [fun i => if i ≤ 1 then (1 : ℚ) else 0]
        (⟨true, 0, (0, 0)⟩ : ControllerState)).2.inMove = true ∧
    (runTicks [fun i => if i ≤ 1 then (1 : ℚ) else 0]
        (⟨true, 0, (0, 0)⟩ : ControllerState)).2.motionStartIndex = 0 := by
  exact origin_exclusivity _ _ _ rfl rfl
    (by
      intro p hp
      simp only [List.zip_cons_cons, List.zip_nil_right, List.mem_singleton] at hp
      subst hp
      constructor <;> norm_num)
    (by
      intro x hx
      simp only [List.mem_singleton] at hx
      subst hx
      norm_num [checkDeadzone, deadzone])

/-- C8: on an Active-to-Idle transition tick (move active, origin stick
back inside its dead zone) the tick emits, in order, a release of all
three mouse buttons, the stick's modifier-key release if it has one,
and then exactly the unwind's move events, whose net displacement is
the negated accumulator; the tick ends idle with a zero accumulator and
emits no axis-driven motion event. -/
theorem gesture_exit_behavior (a : Int → ℚ) (s : ControllerState)
    (hm : s.inMove = true)
    (hdz : checkDeadzone deadzone a s.motionStartIndex = true) :
    sendMouse a s =
      (Event.setButtons false false false ::
          (setKeys s.motionStartIndex false ++
            (doUnwind max_unwind_step (by norm_num [max_unwind_step])
                s.unwindAccumulator).1.map (fun d => Event.move d.1 d.2)),
        { s with inMove := false, unwindAccumulator := (0, 0) }) ∧
    netDisp (sendMouse a s).1
      = (-s.unwindAccumulator.1, -s.unwindAccumulator.2) := by
  have he := sendMouse_exit a s hm hdz
  refine ⟨he, ?_⟩
  rw [he]
  rw [netDisp_cons_setButtons, netDisp_append, netDisp_setKeys, netDisp_map_move]
  have hsum := doUnwind_sum max_unwind_step (by norm_num [max_unwind_step])
    s.unwindAccumulator
  simp only [Prod.mk.injEq] at hsum
  simp only [hsum.1, hsum.2]
  exact Prod.ext (by ring) (by ring)

/-- Witness for C8: an active orbit gesture with accumulator `(5, -3)`
whose stick recenters emits the button release, the shift release and
the single unwind move `(-5, 3)`, ending idle with accumulator zero. -/
theorem gesture_exit_behavior_witness :
    (⟨true, 2, (5, -3)⟩ : ControllerState).inMove = true ∧
    checkDeadzone deadzone (fun _ => (0 : ℚ))
      (⟨true, 2, (5, -3)⟩ : ControllerState).motionStartIndex = true ∧
    sendMouse (fun _ => (0 : ℚ)) ⟨true, 2, (5, -3)⟩
      = ([Event.setButtons false false false, Event.keyRelease KEY_LEFT_SHIFT,
          Event.move (-5) 3], ⟨false, 2, (0, 0)⟩) ∧
    netDisp (sendMouse (fun _ => (0 : ℚ)) ⟨true, 2, (5, -3)⟩).1 = (-5, 3) := by
  have h := gesture_exit_behavior (fun _ => (0 : ℚ)) ⟨true, 2, (5, -3)⟩ rfl
    (checkDeadzone_center_eval 2)
  refine ⟨rfl, checkDeadzone_center_eval 2, ?_, ?_⟩
  · rw [h.1]
    have hdu : (doUnwind max_unwind_step (by norm_num [max_unwind_step])
        ((5 : Int), (-3 : Int))).1 = [(-5, 3)] := by
      simp [doUnwind, max_step, max_unwind_step]
    show (Event.setButtons false false false ::
        (setKeys 2 false ++
          (doUnwind max_unwind_step (by norm_num [max_unwind_step])
              ((5 : Int), (-3 : Int))).1.map (fun d => Event.move d.1 d.2)),
      (⟨false, 2, (0, 0)⟩ : ControllerState)) = _
    rw [hdu]
    rfl
  · rw [h.2]
    rfl

end OrbitRat
